import Mathlib

/-!
Shallow embedding of `source_code/bayesian.py` (WorldQuant_BTC-Trading).

The file embeds the three core functions of the script:

* `find_best_model` — grid search over (iteration budget × scoring method),
  keeping the best-scoring structure under strict `>` comparison, with the
  best score initialised to `float('-inf')` (modelled as `⊥ : WithBot ℤ`);
* `predict_value` — column reconciliation against the model's node set,
  unconditional drop of the literal column "forecast", inference call,
  with a catch-all `except` that logs and returns `None`;
* `calculate_error` — `np.mean(real != np.roll(pred_value, 1))` under numpy
  broadcasting rules, also wrapped in a catch-all `except`.

External capabilities (pgmpy's `HillClimbSearch.estimate`, the scoring
objects' `.score`, and the fitted model's `.predict`) are abstracted as
function parameters, exactly as the spec treats them.  Real-valued scores
are modelled as integers: every claim about them is order-theoretic.
Floating-point means are modelled as exact rationals `ℚ`.
-/

namespace Bayesian

/-! ## find_best_model -/

/-- The mutable best-so-far accumulator of `find_best_model`:
`best_model = None`, `best_score = float('-inf')`, `best_method = None`,
`best_iter = None` before the loop; `-inf` is `⊥ : WithBot ℤ`. -/
structure BestState (Model : Type) where
  bestModel : Option Model
  bestScore : WithBot ℤ
  bestMethod : Option String
  bestIter : Option Nat
deriving DecidableEq

/-- A grid cell as iterated by the two nested loops: an iteration budget
`max_iter`, a method name and the scoring-method object. -/
abbrev Cell (σ : Type) := Nat × String × σ

variable {Model σ : Type}

/-- The model produced for one grid cell:
`model = hc.estimate(scoring_method=scoring_method, max_iter=max_iter)`.
`est` abstracts `hc.estimate` (the training data is fixed inside `hc`). -/
def estModel (est : Nat → σ → Model) (c : Cell σ) : Model :=
  est c.1 c.2.2

/-- The re-computed score of one grid cell:
`score = scoring_method.score(model)`. -/
def cellScore (est : Nat → σ → Model) (sc : σ → Model → ℤ) (c : Cell σ) : ℤ :=
  sc c.2.2 (estModel est c)

/-- The accumulator state written when a cell wins the comparison: all four
fields are assigned from this one cell in the same `if` body. -/
def mkCell (est : Nat → σ → Model) (sc : σ → Model → ℤ) (c : Cell σ) :
    BestState Model :=
  ⟨some (estModel est c), (cellScore est sc c : ℤ), some c.2.1, some c.1⟩

/-- The initial accumulator: sentinels `None` everywhere and score `-inf`. -/
def initState : BestState Model :=
  ⟨none, ⊥, none, none⟩

/-- The body of the doubly nested loop for one cell:
`if score > best_score:` replace all four fields, else keep the state. -/
def step (est : Nat → σ → Model) (sc : σ → Model → ℤ) (s : BestState Model)
    (c : Cell σ) : BestState Model :=
  if s.bestScore < (cellScore est sc c : ℤ) then mkCell est sc c else s

/-- The grid in iteration order: outer loop `for max_iter in max_iters`,
inner loop `for method_name, scoring_method in scoring_methods.items()`
(a Python dict iterates in insertion order, hence an ordered list). -/
def gridCells (max_iters : List Nat) (methods : List (String × σ)) :
    List (Cell σ) :=
  match max_iters with
  | [] => []
  | it :: rest => methods.map (fun nm => (it, nm.1, nm.2)) ++ gridCells rest methods

/-- `find_best_model(train_data, scoring_methods, max_iters)`:
fold the loop body over the grid and return
`(best_model, best_method, best_score, best_iter)`. -/
def find_best_model (est : Nat → σ → Model) (sc : σ → Model → ℤ)
    (methods : List (String × σ)) (max_iters : List Nat) :
    Option Model × Option String × WithBot ℤ × Option Nat :=
  let s := (gridCells max_iters methods).foldl (step est sc) initState
  (s.bestModel, s.bestMethod, s.bestScore, s.bestIter)

/-! ## predict_value -/

/-- A pandas DataFrame, reduced to what `predict_value` observes: an ordered
list of named columns of (discretised, hence integer) values. -/
structure DataFrame where
  cols : List (String × List ℤ)
deriving DecidableEq

/-- The column labels of a DataFrame, in order. -/
def colNames (df : DataFrame) : List String :=
  df.cols.map Prod.fst

/-- `df.drop(columns=labels, axis=1)`: pandas raises a `KeyError` if any
requested label is absent, otherwise removes every column whose label is
in the list (duplicate labels in the list are harmless). -/
def dropCols (df : DataFrame) (labels : List String) : Except String DataFrame :=
  if labels.all (fun l => l ∈ colNames df) then
    .ok ⟨df.cols.filter (fun p => p.1 ∉ labels)⟩
  else
    .error "KeyError: labels not found in axis"

/-- `prediction['forecast']`: column lookup, `KeyError` when absent. -/
def getCol (df : DataFrame) (name : String) : Except String (List ℤ) :=
  match df.cols.find? (fun p => p.1 = name) with
  | some p => .ok p.2
  | none => .error "KeyError: column not found"

/-- The column reconciliation of `predict_value`:
`columns_only_in_df2 = set(states.columns) - set(model_struct.nodes())`, then
`data_new = states.drop(columns=list(columns_only_in_df2) + ['forecast'], axis=1)`. -/
def dataNewOf (modelNodes : List String) (states : DataFrame) :
    Except String DataFrame :=
  let columns_only_in_df2 := (colNames states).filter (fun c => c ∉ modelNodes)
  dropCols states (columns_only_in_df2 ++ ["forecast"])

/-- The body of the `try:` block of `predict_value`: reconcile columns,
run inference (`model_struct.predict(data_new)`, abstracted as `infer`),
extract the `'forecast'` column. -/
def predictValueBody (modelNodes : List String)
    (infer : DataFrame → Except String DataFrame) (states : DataFrame) :
    Except String (List ℤ) :=
  (dataNewOf modelNodes states).bind fun data_new =>
    (infer data_new).bind fun prediction =>
      getCol prediction "forecast"

/-- `predict_value(model_struct, states)`: the whole body sits in
`try: ... except Exception: logging.error(...)`, so any failure yields the
implicit return value `None`, modelled as `Option.none`. -/
def predict_value (modelNodes : List String)
    (infer : DataFrame → Except String DataFrame) (states : DataFrame) :
    Option (List ℤ) :=
  match predictValueBody modelNodes infer states with
  | .ok v => some v
  | .error _ => none

/-! ## calculate_error -/

/-- `np.roll(xs, 1)`: rotate right by one place, i.e. element `i` of the
result is element `(i - 1) mod n` of the input; a left rotation by `n - 1`. -/
def npRoll1 (xs : List ℤ) : List ℤ :=
  xs.rotate (xs.length - 1)

/-- `real != rolled` under numpy broadcasting for one-dimensional arrays:
defined when the lengths agree or one side has length 1, a shape error
otherwise. -/
def broadcastNe (a b : List ℤ) : Except String (List Bool) :=
  if a.length = b.length then
    .ok (List.zipWith (fun x y => x != y) a b)
  else
    match a, b with
    | [x], b => .ok (b.map (fun y => x != y))
    | a, [y] => .ok (a.map (fun x => x != y))
    | _, _ => .error "ValueError: operands could not be broadcast together"

/-- The body of the `try:` block of `calculate_error`:
`error = np.mean(real != np.roll(pred_value, 1))`, the mean of a boolean
array being the fraction of `True` entries.  (For two empty inputs numpy's
mean is `nan`; the embedding's `0/0 = 0` stands in for it — no claim
touches that cell.) -/
def calcErrorBody (pred_value real : List ℤ) : Except String ℚ :=
  (broadcastNe real (npRoll1 pred_value)).bind fun cmp =>
    .ok ((cmp.countP id : ℚ) / (cmp.length : ℚ))

/-- `calculate_error(pred_value, real)`: the whole body sits in
`try: ... except Exception: logging.error(...)`, so any failure yields the
implicit return value `None`, modelled as `Option.none`. -/
def calculate_error (pred_value real : List ℤ) : Option ℚ :=
  match calcErrorBody pred_value real with
  | .ok q => some q
  | .error _ => none

/-! ## Helper lemmas about the grid fold -/

@[simp] theorem mkCell_bestScore (est : Nat → σ → Model) (sc : σ → Model → ℤ)
    (c : Cell σ) :
    (mkCell est sc c).bestScore = ((cellScore est sc c : ℤ) : WithBot ℤ) :=
  rfl

@[simp] theorem initState_bestScore :
    (initState : BestState Model).bestScore = ⊥ :=
  rfl

/-- One loop iteration updates the running best score to the max. -/
theorem step_bestScore (est : Nat → σ → Model) (sc : σ → Model → ℤ)
    (s : BestState Model) (c : Cell σ) :
    (step est sc s c).bestScore =
      max s.bestScore ((cellScore est sc c : ℤ) : WithBot ℤ) := by
  unfold step
  by_cases h : s.bestScore < ((cellScore est sc c : ℤ) : WithBot ℤ)
  · simp [h, max_eq_right (le_of_lt h)]
  · simp [h, max_eq_left (not_lt.mp h)]

/-- The best score of the fold is the fold of `max` over the cell scores. -/
theorem foldl_step_score (est : Nat → σ → Model) (sc : σ → Model → ℤ) :
    ∀ (l : List (Cell σ)) (s : BestState Model),
      (l.foldl (step est sc) s).bestScore =
        l.foldl (fun b c => max b ((cellScore est sc c : ℤ) : WithBot ℤ)) s.bestScore
  | [], _ => rfl
  | c :: t, s => by
    simp only [List.foldl_cons]
    rw [foldl_step_score est sc t (step est sc s c), step_bestScore]

/-- Characterisation of the grid fold from an arbitrary start state: either
no cell beats the incoming best score and the state is unchanged, or the
final state comes atomically from the earliest cell attaining the maximum
cell score (every earlier cell scores strictly less, every cell at most). -/
theorem foldl_step_spec (est : Nat → σ → Model) (sc : σ → Model → ℤ) :
    ∀ (l : List (Cell σ)) (s : BestState Model),
      (l.foldl (step est sc) s = s ∧
        ∀ c ∈ l, ((cellScore est sc c : ℤ) : WithBot ℤ) ≤ s.bestScore) ∨
      (∃ l1 c l2, l = l1 ++ c :: l2 ∧
        l.foldl (step est sc) s = mkCell est sc c ∧
        s.bestScore < ((cellScore est sc c : ℤ) : WithBot ℤ) ∧
        (∀ b ∈ l, cellScore est sc b ≤ cellScore est sc c) ∧
        (∀ b ∈ l1, cellScore est sc b < cellScore est sc c))
  | [], s => Or.inl ⟨rfl, by simp⟩
  | c :: t, s => by
    simp only [List.foldl_cons]
    by_cases h : s.bestScore < ((cellScore est sc c : ℤ) : WithBot ℤ)
    · have hstep : step est sc s c = mkCell est sc c := if_pos h
      rw [hstep]
      rcases foldl_step_spec est sc t (mkCell est sc c) with
        ⟨heq, hall⟩ | ⟨l1, c', l2, hsplit, heq, hlt, hmax, hbef⟩
      · refine Or.inr ⟨[], c, t, rfl, heq, h, ?_, by simp⟩
        intro b hb
        rcases List.mem_cons.mp hb with rfl | hb
        · exact le_refl _
        · exact WithBot.coe_le_coe.mp (by simpa using hall b hb)
      · have hcc' : cellScore est sc c < cellScore est sc c' :=
          WithBot.coe_lt_coe.mp (by simpa using hlt)
        refine Or.inr ⟨c :: l1, c', l2, by rw [hsplit, List.cons_append],
          heq, lt_trans h (by simpa using hlt), ?_, ?_⟩
        · intro b hb
          rcases List.mem_cons.mp hb with rfl | hb
          · exact le_of_lt hcc'
          · exact hmax b hb
        · intro b hb
          rcases List.mem_cons.mp hb with rfl | hb
          · exact hcc'
          · exact hbef b hb
    · have hstep : step est sc s c = s := if_neg h
      rw [hstep]
      rcases foldl_step_spec est sc t s with
        ⟨heq, hall⟩ | ⟨l1, c', l2, hsplit, heq, hlt, hmax, hbef⟩
      · refine Or.inl ⟨heq, ?_⟩
        intro b hb
        rcases List.mem_cons.mp hb with rfl | hb
        · exact not_lt.mp h
        · exact hall b hb
      · have hcc' : ((cellScore est sc c : ℤ) : WithBot ℤ) <
            ((cellScore est sc c' : ℤ) : WithBot ℤ) :=
          lt_of_le_of_lt (not_lt.mp h) hlt
        refine Or.inr ⟨c :: l1, c', l2, by rw [hsplit, List.cons_append],
          heq, hlt, ?_, ?_⟩
        · intro b hb
          rcases List.mem_cons.mp hb with rfl | hb
          · exact le_of_lt (WithBot.coe_lt_coe.mp hcc')
          · exact hmax b hb
        · intro b hb
          rcases List.mem_cons.mp hb with rfl | hb
          · exact WithBot.coe_lt_coe.mp hcc'
          · exact hbef b hb

/-- A fold of `max` stays strictly below a strict upper bound of the start
value and of every cell score. -/
theorem foldl_max_lt (est : Nat → σ → Model) (sc : σ → Model → ℤ) :
    ∀ (l : List (Cell σ)) (b X : WithBot ℤ), b < X →
      (∀ c ∈ l, ((cellScore est sc c : ℤ) : WithBot ℤ) < X) →
      l.foldl (fun a c => max a ((cellScore est sc c : ℤ) : WithBot ℤ)) b < X
  | [], _, _, hb, _ => hb
  | c :: t, b, X, hb, hl => by
    simp only [List.foldl_cons]
    exact foldl_max_lt est sc t _ X (max_lt hb (hl c (List.mem_cons_self c t)))
      (fun d hd => hl d (List.mem_cons_of_mem _ hd))

/-- Permuting the scoring-method list permutes the grid cells. -/
theorem gridCells_perm {methods1 methods2 : List (String × σ)}
    (h : methods1.Perm methods2) (max_iters : List Nat) :
    (gridCells max_iters methods1).Perm (gridCells max_iters methods2) := by
  induction max_iters with
  | nil => exact List.Perm.refl _
  | cons it rest ih =>
    simp only [gridCells]
    exact List.Perm.append (h.map _) ih

/-- The `max` fold over the cell scores is invariant under permutation. -/
theorem foldl_max_perm (est : Nat → σ → Model) (sc : σ → Model → ℤ)
    {l1 l2 : List (Cell σ)} (h : l1.Perm l2) (b : WithBot ℤ) :
    l1.foldl (fun a c => max a ((cellScore est sc c : ℤ) : WithBot ℤ)) b =
    l2.foldl (fun a c => max a ((cellScore est sc c : ℤ) : WithBot ℤ)) b := by
  haveI : RightCommutative
      (fun (a : WithBot ℤ) (c : Cell σ) => max a ((cellScore est sc c : ℤ) : WithBot ℤ)) :=
    ⟨fun x c1 c2 => Max.right_comm x _ _⟩
  exact h.foldl_eq b

/-- A non-empty budget list and a non-empty method list give a non-empty grid. -/
theorem gridCells_ne_nil {methods : List (String × σ)} {max_iters : List Nat}
    (hi : max_iters ≠ []) (hm : methods ≠ []) :
    gridCells max_iters methods ≠ [] := by
  cases max_iters with
  | nil => exact absurd rfl hi
  | cons it rest =>
    cases methods with
    | nil => exact absurd rfl hm
    | cons m ms => simp [gridCells]

/-- On a non-empty cell list the fold from the initial state always lands on
the earliest maximum-score cell (the left branch of `foldl_step_spec` would
need a cell score `≤ ⊥`). -/
theorem foldl_step_spec_of_ne_nil (est : Nat → σ → Model) (sc : σ → Model → ℤ)
    {l : List (Cell σ)} (hl : l ≠ []) :
    ∃ l1 c l2, l = l1 ++ c :: l2 ∧
      l.foldl (step est sc) initState = mkCell est sc c ∧
      (∀ b ∈ l, cellScore est sc b ≤ cellScore est sc c) ∧
      (∀ b ∈ l1, cellScore est sc b < cellScore est sc c) := by
  rcases foldl_step_spec est sc l initState with
    ⟨_, hall⟩ | ⟨l1, c, l2, hs, he, _, hm, hb⟩
  · exfalso
    obtain ⟨c, hc⟩ := List.exists_mem_of_ne_nil _ hl
    have := hall c hc
    simp only [initState_bestScore] at this
    exact absurd this (by simp)
  · exact ⟨l1, c, l2, hs, he, hm, hb⟩

end Bayesian

namespace Bayesian

/-! ## Claim theorems -/

/-- C1: for every non-empty grid of iteration budgets and scoring methods,
`find_best_model` returns the tuple of the earliest grid cell attaining the
maximum re-computed score: its score is ≥ the score of every cell, and every
cell strictly before it in iteration order scores strictly less (strict `>`
comparison keeps the earlier result on ties). -/
theorem claim_C1_global_max_first_found {Model σ : Type}
    (est : Nat → σ → Model) (sc : σ → Model → ℤ)
    (methods : List (String × σ)) (max_iters : List Nat)
    (hm : methods ≠ []) (hi : max_iters ≠ []) :
    ∃ l1 c l2, gridCells max_iters methods = l1 ++ c :: l2 ∧
      find_best_model est sc methods max_iters =
        (some (estModel est c), some c.2.1,
          ((cellScore est sc c : ℤ) : WithBot ℤ), some c.1) ∧
      (∀ b ∈ gridCells max_iters methods, cellScore est sc b ≤ cellScore est sc c) ∧
      (∀ b ∈ l1, cellScore est sc b < cellScore est sc c) := by
  obtain ⟨l1, c, l2, hsplit, heq, hmax, hbef⟩ :=
    foldl_step_spec_of_ne_nil est sc (gridCells_ne_nil hi hm)
  exact ⟨l1, c, l2, hsplit, by simp [find_best_model, heq, mkCell], hmax, hbef⟩

/-- C1 witness: a concrete 2×2 grid. -/
theorem claim_C1_witness :
    (([("a", (2 : ℤ)), ("b", 3)] : List (String × ℤ)) ≠ []) ∧ (([1, 2] : List Nat) ≠ []) ∧
    (∃ l1 c l2,
      gridCells [1, 2] [("a", (2 : ℤ)), ("b", 3)] = l1 ++ c :: l2 ∧
      find_best_model (fun it s => (it : ℤ) + s) (fun s m => m * s)
          [("a", (2 : ℤ)), ("b", 3)] [1, 2] =
        (some (estModel (fun it s => (it : ℤ) + s) c), some c.2.1,
          ((cellScore (fun it s => (it : ℤ) + s) (fun s m => m * s) c : ℤ) : WithBot ℤ),
          some c.1) ∧
      (∀ b ∈ gridCells [1, 2] [("a", (2 : ℤ)), ("b", 3)],
        cellScore (fun it s => (it : ℤ) + s) (fun s m => m * s) b ≤
          cellScore (fun it s => (it : ℤ) + s) (fun s m => m * s) c) ∧
      (∀ b ∈ l1,
        cellScore (fun it s => (it : ℤ) + s) (fun s m => m * s) b <
          cellScore (fun it s => (it : ℤ) + s) (fun s m => m * s) c)) :=
  ⟨by simp, by simp,
    claim_C1_global_max_first_found (fun it s => (it : ℤ) + s) (fun s m => m * s)
      [("a", (2 : ℤ)), ("b", 3)] [1, 2] (by simp) (by simp)⟩

/-- C7: the best score starts at negative infinity (`⊥`) with all other
fields `None`, so on any non-empty grid the loop body applied to the initial
state and the first grid cell always replaces the whole sentinel state by
that cell's candidate tuple. -/
theorem claim_C7_neg_inf_first_candidate {Model σ : Type}
    (est : Nat → σ → Model) (sc : σ → Model → ℤ)
    (methods : List (String × σ)) (max_iters : List Nat)
    (hi : max_iters ≠ []) (hm : methods ≠ []) :
    (initState : BestState Model) = ⟨none, ⊥, none, none⟩ ∧
    ∃ c rest, gridCells max_iters methods = c :: rest ∧
      step est sc initState c = mkCell est sc c := by
  refine ⟨rfl, ?_⟩
  cases max_iters with
  | nil => exact absurd rfl hi
  | cons it rest =>
    cases methods with
    | nil => exact absurd rfl hm
    | cons m ms =>
      refine ⟨(it, m.1, m.2), ms.map (fun nm => (it, nm.1, nm.2)) ++ gridCells rest (m :: ms),
        by simp [gridCells], ?_⟩
      simp only [step, initState_bestScore]
      rw [if_pos (WithBot.bot_lt_coe _)]

/-- C7 witness: a concrete grid with one budget and one method. -/
theorem claim_C7_witness :
    (([3] : List Nat) ≠ []) ∧ (([("Bic", (5 : ℤ))] : List (String × ℤ)) ≠ []) ∧
    ((initState : BestState ℤ) = ⟨none, ⊥, none, none⟩ ∧
      ∃ c rest, gridCells [3] [("Bic", (5 : ℤ))] = c :: rest ∧
        step (fun it s => (it : ℤ) * s) (fun s m => m + s) initState c =
          mkCell (fun it s => (it : ℤ) * s) (fun s m => m + s) c) :=
  ⟨by simp, by simp,
    claim_C7_neg_inf_first_candidate (fun it s => (it : ℤ) * s) (fun s m => m + s)
      [("Bic", (5 : ℤ))] [3] (by simp) (by simp)⟩

/-- C8: after any prefix of the grid iteration the accumulator is either
still the all-sentinel initial state, or equals, in all four fields at once,
the candidate of one single grid cell of that prefix whose re-computed score
strictly exceeded the best score held just before that cell was processed. -/
theorem claim_C8_atomic_update_invariant {Model σ : Type}
    (est : Nat → σ → Model) (sc : σ → Model → ℤ)
    (methods : List (String × σ)) (max_iters : List Nat) (n : Nat) :
    ((gridCells max_iters methods).take n).foldl (step est sc) initState =
      (initState : BestState Model) ∨
    ∃ l1 c l2, (gridCells max_iters methods).take n = l1 ++ c :: l2 ∧
      ((gridCells max_iters methods).take n).foldl (step est sc) initState =
        mkCell est sc c ∧
      (l1.foldl (step est sc) initState).bestScore <
        ((cellScore est sc c : ℤ) : WithBot ℤ) := by
  rcases foldl_step_spec est sc ((gridCells max_iters methods).take n) initState with
    ⟨heq, _⟩ | ⟨l1, c, l2, hsplit, heq, _, _, hbef⟩
  · exact Or.inl heq
  · refine Or.inr ⟨l1, c, l2, hsplit, heq, ?_⟩
    rw [foldl_step_score]
    exact foldl_max_lt est sc l1 _ _
      (by simp [WithBot.bot_lt_coe])
      (fun b hb => WithBot.coe_lt_coe.mpr (hbef b hb))

/-- C6: permuting the insertion order of the scoring-method mapping never
changes the best score returned by `find_best_model`; and whenever at most
one grid cell attains the maximum score, the whole returned tuple (model,
method, score, budget) is also unchanged — only under duplicate maxima may
the reported method and budget differ. -/
theorem claim_C6_order_independence {Model σ : Type}
    (est : Nat → σ → Model) (sc : σ → Model → ℤ)
    (methods1 methods2 : List (String × σ)) (max_iters : List Nat)
    (hp : methods1.Perm methods2) :
    (find_best_model est sc methods1 max_iters).2.2.1 =
      (find_best_model est sc methods2 max_iters).2.2.1 ∧
    ((∀ c1 ∈ gridCells max_iters methods1, ∀ c2 ∈ gridCells max_iters methods1,
        (∀ b ∈ gridCells max_iters methods1, cellScore est sc b ≤ cellScore est sc c1) →
        (∀ b ∈ gridCells max_iters methods1, cellScore est sc b ≤ cellScore est sc c2) →
        c1 = c2) →
      find_best_model est sc methods1 max_iters =
        find_best_model est sc methods2 max_iters) := by
  have hperm := gridCells_perm hp max_iters
  have hpr1 : (find_best_model est sc methods1 max_iters).2.2.1 =
      ((gridCells max_iters methods1).foldl (step est sc) initState).bestScore := rfl
  have hpr2 : (find_best_model est sc methods2 max_iters).2.2.1 =
      ((gridCells max_iters methods2).foldl (step est sc) initState).bestScore := rfl
  constructor
  · rw [hpr1, hpr2, foldl_step_score, foldl_step_score]
    exact foldl_max_perm est sc hperm _
  · intro huniq
    by_cases hnil : gridCells max_iters methods1 = []
    · have hnil2 : gridCells max_iters methods2 = [] :=
        List.Perm.eq_nil ((hnil ▸ hperm).symm)
      simp [find_best_model, hnil, hnil2]
    · have hnil2 : gridCells max_iters methods2 ≠ [] :=
        fun h => hnil (List.Perm.eq_nil (h ▸ hperm))
      obtain ⟨l1, c1, l2, hs1, he1, hm1, _⟩ := foldl_step_spec_of_ne_nil est sc hnil
      obtain ⟨r1, c2, r2, hs2, he2, hm2, _⟩ := foldl_step_spec_of_ne_nil est sc hnil2
      have hc1mem : c1 ∈ gridCells max_iters methods1 := by
        rw [hs1]; exact List.mem_append_right _ (List.mem_cons_self _ _)
      have hc2mem2 : c2 ∈ gridCells max_iters methods2 := by
        rw [hs2]; exact List.mem_append_right _ (List.mem_cons_self _ _)
      have hc2mem1 : c2 ∈ gridCells max_iters methods1 := hperm.mem_iff.mpr hc2mem2
      have hm2' : ∀ b ∈ gridCells max_iters methods1,
          cellScore est sc b ≤ cellScore est sc c2 :=
        fun b hb => hm2 b (hperm.mem_iff.mp hb)
      have hcc : c1 = c2 := huniq c1 hc1mem c2 hc2mem1 hm1 hm2'
      have ht1 : find_best_model est sc methods1 max_iters =
          (some (estModel est c1), some c1.2.1,
            ((cellScore est sc c1 : ℤ) : WithBot ℤ), some c1.1) := by
        simp [find_best_model, he1, mkCell]
      have ht2 : find_best_model est sc methods2 max_iters =
          (some (estModel est c2), some c2.2.1,
            ((cellScore est sc c2 : ℤ) : WithBot ℤ), some c2.1) := by
        simp [find_best_model, he2, mkCell]
      rw [ht1, ht2, hcc]

/-- C6 witness: two insertion orders of the same two scoring methods. -/
theorem claim_C6_witness :
    (([("a", (1 : ℤ)), ("b", 2)] : List (String × ℤ)).Perm [("b", (2 : ℤ)), ("a", 1)]) ∧
    ((find_best_model (fun it s => (it : ℤ) + s) (fun s m => m - s)
        [("a", (1 : ℤ)), ("b", 2)] [4]).2.2.1 =
      (find_best_model (fun it s => (it : ℤ) + s) (fun s m => m - s)
        [("b", (2 : ℤ)), ("a", 1)] [4]).2.2.1 ∧
    ((∀ c1 ∈ gridCells [4] [("a", (1 : ℤ)), ("b", 2)],
        ∀ c2 ∈ gridCells [4] [("a", (1 : ℤ)), ("b", 2)],
        (∀ b ∈ gridCells [4] [("a", (1 : ℤ)), ("b", 2)],
          cellScore (fun it s => (it : ℤ) + s) (fun s m => m - s) b ≤
            cellScore (fun it s => (it : ℤ) + s) (fun s m => m - s) c1) →
        (∀ b ∈ gridCells [4] [("a", (1 : ℤ)), ("b", 2)],
          cellScore (fun it s => (it : ℤ) + s) (fun s m => m - s) b ≤
            cellScore (fun it s => (it : ℤ) + s) (fun s m => m - s) c2) →
        c1 = c2) →
      find_best_model (fun it s => (it : ℤ) + s) (fun s m => m - s)
          [("a", (1 : ℤ)), ("b", 2)] [4] =
        find_best_model (fun it s => (it : ℤ) + s) (fun s m => m - s)
          [("b", (2 : ℤ)), ("a", 1)] [4])) :=
  ⟨by decide,
    claim_C6_order_independence (fun it s => (it : ℤ) + s) (fun s m => m - s)
      [("a", (1 : ℤ)), ("b", 2)] [("b", (2 : ℤ)), ("a", 1)] [4] (by decide)⟩

/-! ## Helper lemmas about `npRoll1` and the error mean -/

@[simp] theorem length_npRoll1 (xs : List ℤ) : (npRoll1 xs).length = xs.length :=
  List.length_rotate xs _

/-- Rolling right by one puts element `(i + n - 1) % n` at position `i`. -/
theorem npRoll1_getD (xs : List ℤ) (i : Nat) (h : i < xs.length) :
    (npRoll1 xs).getD i 0 = xs.getD ((i + (xs.length - 1)) % xs.length) 0 := by
  have hpos : 0 < xs.length := by omega
  have h1 : i < (npRoll1 xs).length := by simpa using h
  rw [List.getD_eq_getElem _ _ h1,
    List.getD_eq_getElem _ _ (Nat.mod_lt _ hpos)]
  exact List.getElem_rotate xs (xs.length - 1) i h1

/-- The count of mismatching positions of two equal-length lists, stated via
indices. -/
theorem countP_zipWith_bne : ∀ (u v : List ℤ), u.length = v.length →
    (List.zipWith (fun x y => x != y) u v).countP id =
      (List.range u.length).countP (fun i => u.getD i 0 != v.getD i 0)
  | [], _, _ => by simp
  | _ :: _, [], h => by simp at h
  | x :: u, y :: v, h => by
    have hlen : u.length = v.length := by simpa using h
    simp only [List.zipWith_cons_cons, List.countP_cons, List.length_cons,
      List.range_succ_eq_map, List.countP_map]
    rw [countP_zipWith_bne u v hlen]
    simp [Function.comp_def]

/-- A list never mismatches itself. -/
theorem countP_zipWith_bne_self : ∀ (l : List ℤ),
    (List.zipWith (fun x y => x != y) l l).countP id = 0
  | [] => rfl
  | x :: t => by simp [List.countP_cons, countP_zipWith_bne_self t]

/-- On equal-length inputs the body of `calculate_error` succeeds with the
mismatch fraction. -/
theorem calcErrorBody_eq_ok (pred real : List ℤ) (h : pred.length = real.length) :
    calcErrorBody pred real =
      .ok ((((List.zipWith (fun x y => x != y) real (npRoll1 pred)).countP id : ℕ) : ℚ) /
        (real.length : ℚ)) := by
  have hl : real.length = (npRoll1 pred).length := by simp [h]
  unfold calcErrorBody broadcastNe
  rw [if_pos hl]
  show Except.ok _ = _
  rw [List.length_zipWith, length_npRoll1, ← h, min_self, h]

/-- On non-broadcastable shapes the numpy comparison fails. -/
theorem broadcastNe_error (a b : List ℤ) (h : a.length ≠ b.length)
    (ha : a.length ≠ 1) (hb : b.length ≠ 1) :
    broadcastNe a b = .error "ValueError: operands could not be broadcast together" := by
  unfold broadcastNe
  rw [if_neg h]
  rcases a with _ | ⟨x, _ | ⟨x2, ta⟩⟩ <;> rcases b with _ | ⟨y, _ | ⟨y2, tb⟩⟩ <;>
    first
      | rfl
      | exact absurd rfl ha
      | exact absurd rfl hb

end Bayesian

namespace Bayesian

/-- C2: on equal-length non-empty sequences, `calculate_error` returns
exactly the fraction of positions `i` at which `real[i]` differs from
`pred[(i - 1) mod n]` (the predicted sequence rolled forward by one), and
this fraction lies in `[0, 1]`. -/
theorem claim_C2_shift_fraction (pred real : List ℤ)
    (hlen : pred.length = real.length) (hne : real ≠ []) :
    ∃ q, calculate_error pred real = some q ∧
      q = (((List.range real.length).countP
            (fun i => real.getD i 0 !=
              pred.getD ((i + real.length - 1) % real.length) 0) : ℕ) : ℚ) /
          (real.length : ℚ) ∧
      0 ≤ q ∧ q ≤ 1 := by
  have hn : 0 < real.length := List.length_pos.mpr hne
  have hbody := calcErrorBody_eq_ok pred real hlen
  have hcount : (List.zipWith (fun x y => x != y) real (npRoll1 pred)).countP id =
      (List.range real.length).countP
        (fun i => real.getD i 0 !=
          pred.getD ((i + real.length - 1) % real.length) 0) := by
    rw [countP_zipWith_bne real (npRoll1 pred) (by simp [hlen])]
    apply List.countP_congr
    intro i hi
    have hi' : i < real.length := List.mem_range.mp hi
    rw [npRoll1_getD pred i (hlen ▸ hi'), hlen, ← Nat.add_sub_assoc hn i]
  rw [hcount] at hbody
  refine ⟨_, by simp [calculate_error, hbody], rfl, ?_, ?_⟩
  · positivity
  · rw [div_le_one (by exact_mod_cast hn)]
    exact_mod_cast (List.countP_le_length _).trans_eq (List.length_range _)

/-- C2 witness: predicted `[1, 2, 3]` against actual `[2, 3, 1]`. -/
theorem claim_C2_witness :
    (([1, 2, 3] : List ℤ).length = ([2, 3, 1] : List ℤ).length ∧
      ([2, 3, 1] : List ℤ) ≠ []) ∧
    (∃ q, calculate_error [1, 2, 3] [2, 3, 1] = some q ∧
      q = (((List.range ([2, 3, 1] : List ℤ).length).countP
            (fun i => ([2, 3, 1] : List ℤ).getD i 0 !=
              ([1, 2, 3] : List ℤ).getD
                ((i + ([2, 3, 1] : List ℤ).length - 1) %
                  ([2, 3, 1] : List ℤ).length) 0) : ℕ) : ℚ) /
          (([2, 3, 1] : List ℤ).length : ℚ) ∧
      0 ≤ q ∧ q ≤ 1) :=
  ⟨⟨rfl, by simp⟩, claim_C2_shift_fraction [1, 2, 3] [2, 3, 1] rfl (by simp)⟩

/-- C9: predicting the actual sequence rotated forward by one position
(`pred[i] = actual[(i + 1) mod n]`) gives error exactly 0, by construction
of the shift convention. -/
theorem claim_C9_rotated_zero (real : List ℤ) (hne : real ≠ []) :
    calculate_error (real.rotate 1) real = some 0 := by
  have hn : 0 < real.length := List.length_pos.mpr hne
  have hroll : npRoll1 (real.rotate 1) = real := by
    unfold npRoll1
    rw [List.length_rotate, List.rotate_rotate, Nat.add_sub_cancel' hn,
      List.rotate_length]
  have hbody := calcErrorBody_eq_ok (real.rotate 1) real (List.length_rotate _ _)
  rw [hroll, countP_zipWith_bne_self] at hbody
  simp [calculate_error, hbody]

/-- C9 witness: `[5, 7, 9]` rotated forward by one. -/
theorem claim_C9_witness :
    (([5, 7, 9] : List ℤ) ≠ []) ∧
    calculate_error (([5, 7, 9] : List ℤ).rotate 1) [5, 7, 9] = some 0 :=
  ⟨by simp, claim_C9_rotated_zero [5, 7, 9] (by simp)⟩

/-- C5 counterexample: with predicted of length 5 and actual of length 7 no
typed error reaches the caller — the broadcast failure happens inside the
`try:` block, the catch-all handler logs it and `calculate_error` returns
normally with the absent value `None` (`none`): the claim that it raises a
hard error to its caller is false. -/
theorem claim_C5_counterexample :
    calculate_error [1, 2, 3, 4, 5] [1, 2, 3, 4, 5, 6, 7] = none ∧
    calcErrorBody [1, 2, 3, 4, 5] [1, 2, 3, 4, 5, 6, 7] =
      .error "ValueError: operands could not be broadcast together" := by
  exact ⟨rfl, rfl⟩

/-- C5 amended: on mismatched lengths (neither of length 1, e.g. 5 and 7)
the internal numpy comparison fails, the catch-all handler catches and logs
the failure, and `calculate_error` returns the absent result `None` to its
caller; it neither raises nor returns a numeric result. -/
theorem claim_C5_amended_mismatch_returns_none (pred real : List ℤ)
    (hne : pred.length ≠ real.length) (hp1 : pred.length ≠ 1)
    (hr1 : real.length ≠ 1) :
    calculate_error pred real = none ∧
    ∃ e, calcErrorBody pred real = .error e := by
  have hb : broadcastNe real (npRoll1 pred) =
      .error "ValueError: operands could not be broadcast together" :=
    broadcastNe_error real (npRoll1 pred)
      (by simpa using fun hh => hne hh.symm) hr1 (by simpa using hp1)
  have hbody : calcErrorBody pred real =
      .error "ValueError: operands could not be broadcast together" := by
    unfold calcErrorBody
    rw [hb]
    rfl
  exact ⟨by simp [calculate_error, hbody], _, hbody⟩

/-- C5 witness for the amended claim: lengths 5 and 7. -/
theorem claim_C5_witness :
    (([1, 2, 3, 4, 5] : List ℤ).length ≠ ([2, 2, 3, 4, 5, 6, 7] : List ℤ).length ∧
      ([1, 2, 3, 4, 5] : List ℤ).length ≠ 1 ∧
      ([2, 2, 3, 4, 5, 6, 7] : List ℤ).length ≠ 1) ∧
    (calculate_error [1, 2, 3, 4, 5] [2, 2, 3, 4, 5, 6, 7] = none ∧
      ∃ e, calcErrorBody [1, 2, 3, 4, 5] [2, 2, 3, 4, 5, 6, 7] = .error e) :=
  ⟨⟨by simp, by simp, by simp⟩,
    claim_C5_amended_mismatch_returns_none [1, 2, 3, 4, 5] [2, 2, 3, 4, 5, 6, 7]
      (by simp) (by simp) (by simp)⟩

/-- C10: `calculate_error` never propagates an exception: on every input it
either returns the error fraction computed by its body, or (when the body
fails, e.g. on mismatched lengths) returns the absent value `None`. -/
theorem claim_C10_no_exception_propagates (pred real : List ℤ) :
    (∃ q, calculate_error pred real = some q ∧ calcErrorBody pred real = .ok q) ∨
    (calculate_error pred real = none ∧ ∃ e, calcErrorBody pred real = .error e) := by
  cases h : calcErrorBody pred real with
  | ok q => exact Or.inl ⟨q, by simp [calculate_error, h], rfl⟩
  | error e => exact Or.inr ⟨by simp [calculate_error, h], e, rfl⟩

/-- C3: whenever the query dataset carries a column literally named
"forecast", the column reconciliation of `predict_value` succeeds and the
dataset handed to the model's inference call contains no column named
"forecast" (even if "forecast" is also a model node) and no column that is
not a model node. -/
theorem claim_C3_forecast_never_inferred (modelNodes : List String)
    (infer : DataFrame → Except String DataFrame) (states : DataFrame)
    (hf : "forecast" ∈ colNames states) :
    ∃ data_new, dataNewOf modelNodes states = .ok data_new ∧
      "forecast" ∉ colNames data_new ∧
      (∀ c ∈ colNames data_new, c ∈ modelNodes) ∧
      predictValueBody modelNodes infer states =
        (infer data_new).bind (fun prediction => getCol prediction "forecast") := by
  have hcond : ((((colNames states).filter (fun c => c ∉ modelNodes)) ++
      ["forecast"]).all (fun l => l ∈ colNames states)) = true := by
    simp only [List.all_eq_true, List.mem_append, decide_eq_true_eq]
    intro l hl
    rcases hl with hl | hl
    · exact (List.mem_filter.mp hl).1
    · rw [List.mem_singleton.mp hl]
      exact hf
  have hok : dataNewOf modelNodes states =
      .ok ⟨states.cols.filter (fun p =>
        p.1 ∉ (((colNames states).filter (fun c => c ∉ modelNodes)) ++ ["forecast"]))⟩ := by
    unfold dataNewOf dropCols
    rw [if_pos hcond]
  refine ⟨_, hok, ?_, ?_, ?_⟩
  · intro hmem
    simp only [colNames, List.mem_map] at hmem
    obtain ⟨p, hp, hp1⟩ := hmem
    have h2 : p.1 ∉ (((colNames states).filter (fun c => c ∉ modelNodes)) ++ ["forecast"]) :=
      of_decide_eq_true (List.mem_filter.mp hp).2
    exact h2 (List.mem_append_right _ (by rw [hp1]; exact List.mem_singleton.mpr rfl))
  · intro c hc
    simp only [colNames, List.mem_map] at hc
    obtain ⟨p, hp, rfl⟩ := hc
    have h2 : p.1 ∉ (((colNames states).filter (fun c => c ∉ modelNodes)) ++ ["forecast"]) :=
      of_decide_eq_true (List.mem_filter.mp hp).2
    by_contra hcn
    apply h2
    refine List.mem_append_left _ (List.mem_filter.mpr ⟨?_, by simpa using hcn⟩)
    exact List.mem_map_of_mem Prod.fst (List.mem_filter.mp hp).1
  · unfold predictValueBody
    rw [hok]
    rfl

/-- C3 witness: the model's nodes include "forecast" itself, the query has a
stray column "y" unknown to the model. -/
theorem claim_C3_witness :
    ("forecast" ∈ colNames ⟨[("x", [1]), ("y", [2]), ("forecast", [3])]⟩) ∧
    (∃ data_new,
      dataNewOf ["x", "forecast"] ⟨[("x", [1]), ("y", [2]), ("forecast", [3])]⟩ =
        .ok data_new ∧
      "forecast" ∉ colNames data_new ∧
      (∀ c ∈ colNames data_new, c ∈ ["x", "forecast"]) ∧
      predictValueBody ["x", "forecast"] (fun d => .ok d)
          ⟨[("x", [1]), ("y", [2]), ("forecast", [3])]⟩ =
        ((fun d => Except.ok d) data_new).bind
          (fun prediction => getCol prediction "forecast")) :=
  ⟨by simp [colNames],
    claim_C3_forecast_never_inferred ["x", "forecast"] (fun d => .ok d)
      ⟨[("x", [1]), ("y", [2]), ("forecast", [3])]⟩ (by simp [colNames])⟩

/-- C4: no error escapes `predict_value`: whenever any step of its body
(column reconciliation, inference or result extraction) fails, the call
returns the absent result `None`; and when the body succeeds its value is
returned unchanged. -/
theorem claim_C4_failure_logged_absent (modelNodes : List String)
    (infer : DataFrame → Except String DataFrame) (states : DataFrame) :
    (∀ e, predictValueBody modelNodes infer states = .error e →
      predict_value modelNodes infer states = none) ∧
    (∀ v, predictValueBody modelNodes infer states = .ok v →
      predict_value modelNodes infer states = some v) := by
  constructor <;> intro x h <;> simp [predict_value, h]

/-- C4 witness: a query dataset with no "forecast" column makes the
reconciliation fail with a `KeyError`, and the caller sees `none`. -/
theorem claim_C4_witness :
    predictValueBody ["a"] (fun d => .ok d) ⟨[("b", [1])]⟩ =
      .error "KeyError: labels not found in axis" ∧
    predict_value ["a"] (fun d => .ok d) ⟨[("b", [1])]⟩ = none :=
  ⟨rfl, (claim_C4_failure_logged_absent ["a"] (fun d => .ok d) ⟨[("b", [1])]⟩).1 _ rfl⟩

end Bayesian
